import Mathlib

/-!
Shallow embedding of `src/bot.py` (a Telegram-to-Claude-CLI bridge) and
verification of the specification's claims about it.

Text is modelled as `List Char`; Python `str.rfind(sub, 0, e)`,
`str.lstrip("\n")` and `str.strip()` are embedded below.  The chunking loop
`chunk_message` is embedded with explicit fuel: `chunkAux limit fuel text`
returns `none` exactly when the Python `while` loop has not finished within
`fuel` iterations, so `∀ fuel, chunkAux limit fuel t = none` states that the
loop never terminates on `t`.
-/

/-- Python `text.lstrip("\n")`: drop every leading newline character. -/
def lstripNl : List Char → List Char
  | [] => []
  | c :: cs => if c = '\n' then lstripNl cs else c :: cs

/-- Whether `sub` occurs in `text` starting at index `i`. -/
def matchAt (sub text : List Char) (i : Nat) : Bool :=
  (text.drop i).take sub.length == sub

/-- Largest start index `≤ hi` at which `sub` occurs in `text`. -/
def rfindFrom (sub text : List Char) : Nat → Option Nat
  | 0 => if matchAt sub text 0 then some 0 else none
  | i + 1 => if matchAt sub text (i + 1) then some (i + 1) else rfindFrom sub text i

/-- Python `text.rfind(sub, 0, e)` for nonempty `sub`: highest index of an
occurrence of `sub` lying entirely inside `text[0:e]`; `none` plays the role
of Python's `-1`. -/
def pyRfind (sub text : List Char) (e : Nat) : Option Nat :=
  if sub.length ≤ min e text.length then
    rfindFrom sub text (min e text.length - sub.length)
  else none

/-- The cut index chosen by one iteration of `chunk_message`'s loop:
last paragraph break before the limit, else last line break, else last
space, else a hard cut at `limit` (lines 230-239 of `src/bot.py`). -/
def findCut (text : List Char) (limit : Nat) : Nat :=
  match pyRfind ['\n', '\n'] text limit with
  | some c => c
  | none =>
    match pyRfind ['\n'] text limit with
    | some c => c
    | none =>
      match pyRfind [' '] text limit with
      | some c => c
      | none => limit

/-- The `while text:` loop of `chunk_message` (lines 223-244 of
`src/bot.py`), with explicit fuel bounding the number of iterations;
`none` means the loop did not finish within `fuel` iterations. -/
def chunkAux (limit : Nat) : Nat → List Char → Option (List (List Char))
  | fuel, text =>
    if text = [] then some []
    else if text.length ≤ limit then some [text]
    else
      match fuel with
      | 0 => none
      | fuel + 1 =>
        let cut := findCut text limit
        match chunkAux limit fuel (lstripNl (text.drop cut)) with
        | some rest => some (text.take cut :: rest)
        | none => none

/-- `chunk_message(text, limit)` (lines 214-244 of `src/bot.py`): the
initial short-circuit for short texts, then the chunking loop. -/
def chunk_message (fuel : Nat) (text : List Char) (limit : Nat) :
    Option (List (List Char)) :=
  if text.length ≤ limit then some [text] else chunkAux limit fuel text

/-- The input on which the chunking loop spins forever: a space followed by
`limit` non-space characters.  The space at index 0 is the only cut point
found within the limit, so `cut = 0`, the emitted chunk is empty, and
`text[cut:].lstrip("\n")` leaves `text` unchanged (a leading space is not a
newline). -/
def c1FailText : List Char := ' ' :: List.replicate 5 'x'

/-- Concatenate chunks, inserting `seps[i]` after `cs[i]`; a missing
separator contributes nothing. -/
def joinChunks : List (List Char) → List (List Char) → List Char
  | [], _ => []
  | c :: cs, [] => c ++ joinChunks cs []
  | c :: cs, s :: ss => c ++ s ++ joinChunks cs ss

/-- Characters Python's `str.strip()` (no arguments) removes: ASCII
whitespace as relevant here (space, tab, newline, carriage return,
vertical tab, form feed). -/
def isPySpace (c : Char) : Bool :=
  c = ' ' || c = '\t' || c = '\n' || c = '\r' || c = '\x0b' || c = '\x0c'

/-- Python `s.strip()` on a list of characters. -/
def pyStripL (l : List Char) : List Char :=
  ((l.dropWhile isPySpace).reverse.dropWhile isPySpace).reverse

/-- Python `s.strip()` on a string. -/
def pyStrip (s : String) : String :=
  String.mk (pyStripL s.data)

/-- Python truthiness of an optional string: `None` and `""` are falsy. -/
def truthy : Option String → Bool
  | some s => !(s == "")
  | none => false

/-- Python `a or b` on optional strings: `b` when `a` is falsy. -/
def pyOr (a b : Option String) : Option String :=
  if truthy a then a else b

/-- Process-wide configuration read from the environment at startup
(lines 35-45 of `src/bot.py`); only the fields the claims touch. -/
structure Config where
  claude_model : Option String
  claude_allowed_tools : Option String
  timeout_seconds : Int

/-- One per-user session record as created by the session manager:
`{"session_id": ..., "model": ..., "message_count": ...}`
(lines 87-91 of `src/bot.py`). -/
structure Session where
  session_id : String
  model : Option String
  message_count : Nat
deriving DecidableEq

/-- Python values as they appear in the CLI's decoded JSON output and in
the handler-facing response dictionaries. -/
inductive PyVal where
  | vStr (s : String)
  | vInt (n : Int)
  | vBool (b : Bool)
  | vNone
  | vList (l : List PyVal)
  | vDict (l : List (String × PyVal))

/-- Python `d[k]` / `k in d` lookup on a dictionary modelled as an
association list (first binding wins; a Python dict never holds duplicate
keys). -/
def alookup {α : Type} : List (String × α) → String → Option α
  | [], _ => none
  | (k, v) :: rest, key => if k = key then some v else alookup rest key

/-- Python `d[k] = v`: replace the binding if the key is present, append
it otherwise. -/
def aset {α : Type} : List (String × α) → String → α → List (String × α)
  | [], key, v => [(key, v)]
  | (k, w) :: rest, key, v =>
    if k = key then (key, v) :: rest else (k, w) :: aset rest key v

/-- Python `d.get(k, default)`. -/
def agetD (d : List (String × PyVal)) (key : String) (dflt : PyVal) : PyVal :=
  match alookup d key with
  | some v => v
  | none => dflt

/-- Python `str(v)`: the identity on strings; the rendering of non-string
values is left abstract (`strOther`), since no claim depends on it. -/
def pyStr (strOther : PyVal → String) : PyVal → String
  | .vStr s => s
  | v => strOther v

/-- Python `[t.strip() for t in s.split(",") if t.strip()]`
(line 147 of `src/bot.py`). -/
def splitCommaStripped (s : String) : List String :=
  (s.data.splitOn ',').filterMap fun t =>
    let t := pyStripL t
    if t = [] then none else some (String.mk t)

/-- State of the session manager: the in-memory mapping `_data` and the
mapping recorded in the backing JSON file (`none` while nothing has been
written; `_save` rewrites the whole file from `_data`). -/
structure SessionManager where
  data : List (String × Session)
  file : Option (List (String × Session))
deriving DecidableEq

/-- `SessionManager.ensure` (lines 83-93 of `src/bot.py`): return the
existing session, or create, persist and return a new one.  `uuid.uuid4()`
is modelled by the injected fresh identifier `freshId`. -/
def SessionManager.ensure (cfg : Config) (freshId : String) (user_id : Int)
    (m : SessionManager) : Session × SessionManager :=
  let key := toString user_id
  match alookup m.data key with
  | some s => (s, m)
  | none =>
    let s : Session := ⟨freshId, cfg.claude_model, 0⟩
    let d := aset m.data key s
    (s, ⟨d, some d⟩)

/-- `SessionManager.reset` (lines 95-105 of `src/bot.py`): replace the
user's session with a fresh one, keeping `self._data.get(key, {}).get("model",
CLAUDE_MODEL)` as the model, and persist. -/
def SessionManager.reset (cfg : Config) (freshId : String) (user_id : Int)
    (m : SessionManager) : Session × SessionManager :=
  let key := toString user_id
  let old_model :=
    match alookup m.data key with
    | some s => s.model
    | none => cfg.claude_model
  let s : Session := ⟨freshId, old_model, 0⟩
  let d := aset m.data key s
  (s, ⟨d, some d⟩)

/-- Contents of the sessions file on disk at startup. -/
inductive FileState where
  | absent
  | present (raw : String)

/-- `SessionManager._load` (lines 67-73 of `src/bot.py`): the `_data`
mapping after construction, together with whether the corrupt-file warning
was logged.  `json.loads` on the raw file text is modelled by the abstract
`parse`, with `none` standing for a raised `JSONDecodeError`/`OSError`. -/
def SessionManager.loadData
    (parse : String → Option (List (String × Session))) :
    FileState → List (String × Session) × Bool
  | .absent => ([], false)
  | .present raw =>
    match parse raw with
    | some d => (d, false)
    | none => ([], true)

/-- Observable actions a handler performs besides updating the session
store: replying over the chat API and spawning the CLI subprocess. -/
inductive Effect where
  | reply (text : String)
  | spawn (cmd : List String)
deriving DecidableEq

/-- The `@authorized` decorator (lines 199-211 of `src/bot.py`): a wrapped
handler first checks the sender against `ALLOWED_USER_IDS`; an
unauthorized sender gets the fixed rejection reply and the handler body is
never invoked. -/
def authorized (allowed : List Int)
    (handler : Int → SessionManager → SessionManager × List Effect)
    (user_id : Int) (m : SessionManager) : SessionManager × List Effect :=
  if user_id ∈ allowed then handler user_id m
  else (m, [Effect.reply "Sorry, you are not authorized to use this bot."])

/-- Argument-list construction of `ClaudeRunner.run` (lines 130-157 of
`src/bot.py`), translated append by append. -/
def buildCmd (cfg : Config) (prompt : String) (session : Session) : List String :=
  let cmd := ["claude", "-p", "--output-format", "json"]
  let cmd := cmd ++
    (if session.message_count = 0 then ["--session-id", session.session_id]
     else ["--resume", session.session_id])
  let model := pyOr session.model cfg.claude_model
  let cmd := cmd ++ (if truthy model then ["--model", model.getD ""] else [])
  let cmd := cmd ++
    (if truthy cfg.claude_allowed_tools then
      "--allowedTools" :: splitCommaStripped (cfg.claude_allowed_tools.getD "")
     else [])
  let cmd := cmd ++ ["--permission-mode", "dontAsk"]
  let cmd := cmd ++ ["--max-turns", "50"]
  cmd ++ [prompt]

/-- Modelled from the spec's claimed invocation pattern:
`<executable> -p --output-format json [--session-id <id> | --resume <id>]
[--model <name>] [--allowedTools <list>] --permission-mode dontAsk
--max-turns 50 <prompt>`, with `--session-id` exactly on a session's first
message, `--model` exactly when the session's model or the process-wide
default is set (non-empty), and the prompt as the final argument. -/
def cmd_spec (cfg : Config) (prompt : String) (session : Session) : List String :=
  ["claude", "-p", "--output-format", "json"]
    ++ (if session.message_count = 0 then ["--session-id", session.session_id]
        else ["--resume", session.session_id])
    ++ (match pyOr session.model cfg.claude_model with
        | some s => if s = "" then [] else ["--model", s]
        | none => [])
    ++ (if truthy cfg.claude_allowed_tools then
          "--allowedTools" :: splitCommaStripped (cfg.claude_allowed_tools.getD "")
        else [])
    ++ ["--permission-mode", "dontAsk", "--max-turns", "50", prompt]

/-- Outcome of awaiting the spawned CLI child under the timeout. -/
inductive ProcOutcome where
  | timeout
  | exited (returncode : Int) (stdout stderr : String)

/-- Process-management actions `run` performs on the child. -/
inductive RunAction where
  | kill
  | wait
deriving DecidableEq

/-- Outcome handling of `ClaudeRunner.run` (lines 172-191 of
`src/bot.py`): the returned Python value and the actions taken on the
child.  `json.loads` is modelled by the abstract `jsonParse`, `none`
standing for a raised `JSONDecodeError`. -/
def runOutcome (jsonParse : String → Option PyVal) (cfg : Config) :
    ProcOutcome → PyVal × List RunAction
  | .timeout =>
    (.vDict [("error", .vStr ("Claude timed out after " ++
        toString cfg.timeout_seconds ++ "s"))], [.kill, .wait])
  | .exited rc out err =>
    if rc ≠ 0 then
      let e := pyStrip err
      (.vDict [("error", .vStr ("Claude CLI error: " ++
          (if e = "" then "unknown error" else e)))], [])
    else
      let raw := pyStrip out
      match jsonParse raw with
      | some v => (v, [])
      | none => (.vDict [("result", .vStr raw)], [])

/-- `ClaudeRunner.run` (lines 129-191 of `src/bot.py`): build the argument
list, spawn the child, convert the awaited outcome into a returned value. -/
def ClaudeRunner.run (jsonParse : String → Option PyVal) (cfg : Config)
    (prompt : String) (session : Session) (outcome : ProcOutcome) :
    List String × PyVal × List RunAction :=
  (buildCmd cfg prompt session, runOutcome jsonParse cfg outcome)

/-- One iteration of the content-block loop in `extract_response_text`
(lines 259-264 of `src/bot.py`): the part appended for a block, if any —
the `"text"` field of a text-typed dict block, a bare string itself,
nothing otherwise. -/
def blockPart : PyVal → Option PyVal
  | .vDict d =>
    match alookup d "type" with
    | some (.vStr t) =>
      if t = "text" then some (agetD d "text" (.vStr "")) else none
    | _ => none
  | .vStr s => some (.vStr s)
  | _ => none

/-- The `parts` list accumulated by the loop. -/
def collectParts (l : List PyVal) : List PyVal :=
  l.filterMap blockPart

/-- Python string check used by `"\n".join`. -/
def asStr : PyVal → Option String
  | .vStr s => some s
  | _ => none

/-- Python `sep.join(parts)`: defined when every part is a string;
otherwise Python raises `TypeError`, modelled as `none`. -/
def pyJoin (sep : String) (parts : List PyVal) : Option String :=
  (parts.mapM asStr).map (String.intercalate sep)

/-- `extract_response_text` (lines 247-267 of `src/bot.py`).  The result
is `none` exactly when Python would raise (`"\n".join` over a non-string
part).  `str` on non-string values is the abstract `strOther`. -/
def extract_response_text (strOther : PyVal → String)
    (response : List (String × PyVal)) : Option String :=
  match alookup response "error" with
  | some e => some ("Error: " ++ pyStr strOther e)
  | none =>
    match agetD response "result" (.vStr "") with
    | .vStr s => some s
    | .vList l => pyJoin "\n" (collectParts l)
    | v => some (pyStr strOther v)

/-- Modelled from the spec's words: a content segment's contributed text —
the text of a text-typed dict segment, a bare string itself, nothing for
non-text segments. -/
def segText : PyVal → Option String
  | .vDict d =>
    match alookup d "type" with
    | some (.vStr t) =>
      if t = "text" then
        match agetD d "text" (.vStr "") with
        | .vStr s => some s
        | _ => none
      else none
    | _ => none
  | .vStr s => some s
  | _ => none

/-- Modelled from the spec's words for `extract_text`: error results
render as `"Error: <message>"`; a plain-text reply is returned as-is; a
segment list is the newline-join of its segments' texts; anything else is
stringified. -/
def extract_spec (strOther : PyVal → String)
    (response : List (String × PyVal)) : String :=
  match alookup response "error" with
  | some e => "Error: " ++ pyStr strOther e
  | none =>
    match agetD response "result" (.vStr "") with
    | .vStr s => s
    | .vList l => String.intercalate "\n" (l.filterMap segText)
    | v => pyStr strOther v

/-- A block is well formed when the part it contributes (if any) is a
string; text-typed dict blocks with a non-string `"text"` field make
Python's `"\n".join` raise and are the only ill-formed case. -/
def wfBlock (b : PyVal) : Bool :=
  match blockPart b with
  | some v => (asStr v).isSome
  | none => true

/-- A response is well formed when its `result` list (if that is what it
holds) consists of well-formed blocks. -/
def wfResponse (response : List (String × PyVal)) : Bool :=
  match alookup response "error" with
  | some _ => true
  | none =>
    match agetD response "result" (PyVal.vStr "") with
    | PyVal.vList l => l.all wfBlock
    | _ => true

/-- A parsed conversation-log entry; `user_id` is the entry's recorded
`"user_id"` field (`none` when absent) and `payload` stands for the rest
of the record. -/
structure LogEntry where
  user_id : Option Int
  payload : String
deriving DecidableEq

/-- The requested entry count of `cmd_logs` (lines 371-376 of
`src/bot.py`): default 5; an integer argument is capped at 20 via
`min(int(args[0]), 20)`; a non-integer argument (`ValueError`) keeps the
default.  Python `int()` is the abstract `parseInt`. -/
def parseCount (parseInt : String → Option Int) : List String → Int
  | [] => 5
  | a :: _ =>
    match parseInt a with
    | some n => min n 20
    | none => 5

/-- Inner loop of `cmd_logs` (lines 382-390 of `src/bot.py`): walk the
lines of one file (the caller passes them newest-first), parse each,
append entries whose recorded `user_id` equals the sender's, and break
once `len(entries) >= count`.  `json.loads` per line is the abstract
`parse` (`none` = unparsable line, skipped). -/
def scanLines (parse : String → Option LogEntry) (uid : Int) (count : Int) :
    List String → List LogEntry → List LogEntry
  | [], acc => acc
  | line :: rest, acc =>
    match parse line with
    | none => scanLines parse uid count rest acc
    | some e =>
      if e.user_id == some uid then
        let acc2 := acc ++ [e]
        if count ≤ (acc2.length : Int) then acc2
        else scanLines parse uid count rest acc2
      else scanLines parse uid count rest acc

/-- Outer loop of `cmd_logs` (lines 381-392 of `src/bot.py`): visit the
files in the given order, scanning each file's lines in reverse, and break
once enough entries are collected. -/
def scanFiles (parse : String → Option LogEntry) (uid : Int) (count : Int) :
    List (List String) → List LogEntry → List LogEntry
  | [], acc => acc
  | f :: fs, acc =>
    let acc2 := scanLines parse uid count f.reverse acc
    if count ≤ (acc2.length : Int) then acc2
    else scanFiles parse uid count fs acc2

/-- `cmd_logs` (lines 368-392 of `src/bot.py`): the entries shown to the
requesting user.  Each file is a (name, lines) pair;
`sorted(LOGS_DIR.glob("*.jsonl"), reverse=True)` is the name-descending
insertion sort. -/
def cmd_logs_entries (parse : String → Option LogEntry)
    (parseInt : String → Option Int) (uid : Int) (args : List String)
    (files : List (String × List String)) : List LogEntry :=
  let count := parseCount parseInt args
  let ordered := List.insertionSort (fun a b => b.1 ≤ a.1) files
  scanFiles parse uid count (ordered.map Prod.snd) []

/-- The matching entries contributed by one file's lines, in scan order. -/
def lineMatches (parse : String → Option LogEntry) (uid : Int)
    (lines : List String) : List LogEntry :=
  (lines.filterMap parse).filter (fun e => e.user_id == some uid)

/-- The sender's entries contributed by a list of files' line lists, each
file's lines visited newest-first, without the count cut-off. -/
def filesStream (parse : String → Option LogEntry) (uid : Int)
    (fss : List (List String)) : List LogEntry :=
  (fss.map (fun f => lineMatches parse uid f.reverse)).flatten

/-- All of the sender's entries in the order the scan visits them (file
names descending, lines newest-first), without the count cut-off. -/
def matchedStream (parse : String → Option LogEntry) (uid : Int)
    (files : List (String × List String)) : List LogEntry :=
  filesStream parse uid
    ((List.insertionSort (fun a b => b.1 ≤ a.1) files).map Prod.snd)

example : chunkAux 3 5 ['a', 'b', ' ', 'c', 'd'] =
    some [['a', 'b'], [' ', 'c', 'd']] := by decide

example : chunkAux 4 5 ['a', '\n', '\n', '\n', 'b', 'c', 'd', 'e', 'f'] =
    some [['a', '\n'], ['b', 'c', 'd', 'e'], ['f']] := by decide

/-- One unfolding of the loop when neither terminating branch applies. -/
theorem chunkAux_succ (limit n : Nat) (text : List Char)
    (h1 : ¬text = []) (h2 : ¬text.length ≤ limit) :
    chunkAux limit (n + 1) text =
      match chunkAux limit n (lstripNl (text.drop (findCut text limit))) with
      | some rest => some (text.take (findCut text limit) :: rest)
      | none => none := by
  rw [chunkAux]
  rw [if_neg h1, if_neg h2]

/-- The loop state is unchanged by one iteration on `c1FailText`. -/
theorem chunkAux_c1Fail_none : ∀ fuel : Nat, chunkAux 5 fuel c1FailText = none := by
  intro fuel
  induction fuel with
  | zero => decide
  | succ n ih =>
    rw [chunkAux_succ 5 n c1FailText (by decide) (by decide)]
    have hls : lstripNl (c1FailText.drop (findCut c1FailText 5)) = c1FailText := by
      decide
    rw [hls, ih]

/-- Claim C1: the claim states that `chunk_message` terminates for every
text and positive limit, in particular when the only cut point within the
limit is at index 0.  This fails: on a space followed by `limit`
non-space, non-newline characters the chosen cut is the space at index 0,
the appended chunk is empty, and `text[cut:].lstrip("\n")` leaves the text
unchanged, so the loop runs forever.  In the fuel model: no amount of fuel
makes the loop finish. -/
theorem chunk_message_nonterminating_C1 :
    ∀ fuel : Nat, chunk_message fuel c1FailText 5 = none := by
  intro fuel
  rw [chunk_message, if_neg (by decide)]
  exact chunkAux_c1Fail_none fuel

/-- Claim C2 as stated is false: on `"ab cd"` with limit 3 the cut is made
at the space (index 2), the chunks are `["ab", " cd"]`, and the space is
NOT consumed (only leading newlines of the remainder are stripped), so
re-inserting the space separator at the cut duplicates it and does not
reproduce the original text. -/
theorem chunk_concat_counterexample_C2 :
    chunk_message 1 ['a', 'b', ' ', 'c', 'd'] 3 =
        some [['a', 'b'], [' ', 'c', 'd']] ∧
      findCut ['a', 'b', ' ', 'c', 'd'] 3 = 2 ∧
      ['a', 'b', ' ', 'c', 'd'].get? 2 = some ' ' ∧
      joinChunks [['a', 'b'], [' ', 'c', 'd']] [[' ']] ≠
        ['a', 'b', ' ', 'c', 'd'] := by
  refine ⟨by decide, by decide, by decide, by decide⟩

/-- Every list of characters is a run of leading newlines followed by its
`lstrip("\n")`. -/
theorem lstripNl_decomp (l : List Char) :
    ∃ run : List Char, (∀ c ∈ run, c = '\n') ∧ l = run ++ lstripNl l := by
  induction l with
  | nil => exact ⟨[], by simp, rfl⟩
  | cons c cs ih =>
    by_cases h : c = '\n'
    · obtain ⟨run, hrun, heq⟩ := ih
      refine ⟨c :: run, ?_, ?_⟩
      · intro x hx
        rcases List.mem_cons.mp hx with h1 | h2
        · exact h1.trans h
        · exact hrun x h2
      · rw [lstripNl, if_pos h]
        simpa using heq
    · refine ⟨[], by simp, ?_⟩
      rw [lstripNl, if_neg h]
      simp

/-- Reconstruction over the chunking loop itself. -/
theorem chunkAux_concat_newline_runs (limit : Nat) :
    ∀ (fuel : Nat) (text : List Char) (cs : List (List Char)),
      chunkAux limit fuel text = some cs →
      ∃ seps : List (List Char),
        seps.length = cs.length ∧
        (∀ s ∈ seps, ∀ c ∈ s, c = '\n') ∧
        joinChunks cs seps = text := by
  intro fuel
  induction fuel with
  | zero =>
    intro text cs h
    rw [chunkAux] at h
    by_cases h1 : text = []
    · rw [if_pos h1] at h
      obtain rfl : ([] : List (List Char)) = cs := Option.some.inj h
      exact ⟨[], rfl, by simp, h1.symm⟩
    · rw [if_neg h1] at h
      by_cases h2 : text.length ≤ limit
      · rw [if_pos h2] at h
        obtain rfl : [text] = cs := Option.some.inj h
        exact ⟨[[]], rfl, by simp, by simp [joinChunks]⟩
      · rw [if_neg h2] at h
        exact absurd h (by simp)
  | succ n ih =>
    intro text cs h
    by_cases h1 : text = []
    · rw [chunkAux, if_pos h1] at h
      obtain rfl : ([] : List (List Char)) = cs := Option.some.inj h
      exact ⟨[], rfl, by simp, h1.symm⟩
    · by_cases h2 : text.length ≤ limit
      · rw [chunkAux, if_neg h1, if_pos h2] at h
        obtain rfl : [text] = cs := Option.some.inj h
        exact ⟨[[]], rfl, by simp, by simp [joinChunks]⟩
      · rw [chunkAux_succ limit n text h1 h2] at h
        rcases hrec : chunkAux limit n (lstripNl (text.drop (findCut text limit)))
          with _ | rest
        · rw [hrec] at h
          exact absurd h (by simp)
        · rw [hrec] at h
          obtain rfl : text.take (findCut text limit) :: rest = cs :=
            Option.some.inj h
          obtain ⟨seps, hlen, hnl, hjoin⟩ := ih _ _ hrec
          obtain ⟨run, hrun, hdecomp⟩ :=
            lstripNl_decomp (text.drop (findCut text limit))
          refine ⟨run :: seps, by simp [hlen], ?_, ?_⟩
          · intro s hs
            rcases List.mem_cons.mp hs with h3 | h4
            · exact h3 ▸ hrun
            · exact hnl s h4
          · calc joinChunks (text.take (findCut text limit) :: rest) (run :: seps)
                = text.take (findCut text limit) ++ run ++ joinChunks rest seps := by
                  rw [joinChunks]
              _ = text.take (findCut text limit) ++
                    (run ++ lstripNl (text.drop (findCut text limit))) := by
                  rw [hjoin, List.append_assoc]
              _ = text.take (findCut text limit) ++ text.drop (findCut text limit) := by
                  rw [← hdecomp]
              _ = text := List.take_append_drop _ _

/-- Claim C2, amended: for every text on which `chunk_message` finishes,
concatenating its chunks in order while inserting after each chunk the run
of newline characters consumed at that cut (possibly empty — nothing is
consumed at space cuts or hard cuts; possibly longer than the paragraph
separator) reproduces the original text exactly. -/
theorem chunk_concat_reconstructs_C2 (fuel : Nat) (text : List Char)
    (limit : Nat) (cs : List (List Char))
    (h : chunk_message fuel text limit = some cs) :
    ∃ seps : List (List Char),
      seps.length = cs.length ∧
      (∀ s ∈ seps, ∀ c ∈ s, c = '\n') ∧
      joinChunks cs seps = text := by
  rw [chunk_message] at h
  by_cases h2 : text.length ≤ limit
  · rw [if_pos h2] at h
    obtain rfl : [text] = cs := Option.some.inj h
    exact ⟨[[]], rfl, by simp, by simp [joinChunks]⟩
  · rw [if_neg h2] at h
    exact chunkAux_concat_newline_runs limit fuel text cs h

/-- Witness for the amended claim C2 at the counterexample input: the
chunks of `"ab cd"` at limit 3 reconstruct the text with empty newline
runs at the cut. -/
theorem chunk_concat_reconstructs_C2_witness :
    ∃ seps : List (List Char),
      seps.length = ([['a', 'b'], [' ', 'c', 'd']] : List (List Char)).length ∧
      (∀ s ∈ seps, ∀ c ∈ s, c = '\n') ∧
      joinChunks [['a', 'b'], [' ', 'c', 'd']] seps = ['a', 'b', ' ', 'c', 'd'] :=
  chunk_concat_reconstructs_C2 1 ['a', 'b', ' ', 'c', 'd'] 3
    [['a', 'b'], [' ', 'c', 'd']] (by decide)

example : pyStrip "  a b\n\t " = "a b" := by decide

example : splitCommaStripped "Read, Write , ,Bash" = ["Read", "Write", "Bash"] := by
  decide

/-- Claim C5: for every sender not in the allow-list, every wrapped
handler leaves the session store (mapping and backing file) unchanged,
sends exactly the fixed rejection reply, and spawns no subprocess. -/
theorem authorized_rejects_C5 (allowed : List Int)
    (handler : Int → SessionManager → SessionManager × List Effect)
    (user_id : Int) (m : SessionManager) (h : user_id ∉ allowed) :
    authorized allowed handler user_id m =
        (m, [Effect.reply "Sorry, you are not authorized to use this bot."]) ∧
      (∀ cmd, Effect.spawn cmd ∉ (authorized allowed handler user_id m).2) := by
  rw [authorized, if_neg h]
  exact ⟨rfl, by simp⟩

/-- Witness for claim C5: a handler that would spawn the CLI and mutate
the store is short-circuited for an unauthorized sender. -/
theorem authorized_rejects_C5_witness :
    authorized [1] (fun _ _ => (⟨[("2", ⟨"s", none, 7⟩)], none⟩, [Effect.spawn ["claude"]]))
        2 ⟨[], none⟩ =
        (⟨[], none⟩, [Effect.reply "Sorry, you are not authorized to use this bot."]) ∧
      (∀ cmd, Effect.spawn cmd ∉
        (authorized [1] (fun _ _ => (⟨[("2", ⟨"s", none, 7⟩)], none⟩,
          [Effect.spawn ["claude"]])) 2 ⟨[], none⟩).2) :=
  authorized_rejects_C5 [1] _ 2 ⟨[], none⟩ (by decide)

/-- Updating a key makes it look up to the new value. -/
theorem alookup_aset {α : Type} (d : List (String × α)) (key : String) (v : α) :
    alookup (aset d key v) key = some v := by
  induction d with
  | nil => simp [aset, alookup]
  | cons p rest ih =>
    obtain ⟨k, w⟩ := p
    by_cases h : k = key
    · rw [aset, if_pos h, alookup, if_pos rfl]
    · rw [aset, if_neg h, alookup, if_neg h]
      exact ih

/-- Setting an absent key appends the binding. -/
theorem aset_absent {α : Type} (d : List (String × α)) (key : String) (v : α)
    (h : alookup d key = none) : aset d key v = d ++ [(key, v)] := by
  induction d with
  | nil => rfl
  | cons p rest ih =>
    obtain ⟨k, w⟩ := p
    rw [alookup] at h
    by_cases hk : k = key
    · rw [if_pos hk] at h
      exact absurd h (by simp)
    · rw [if_neg hk] at h
      rw [aset, if_neg hk, ih h]
      rfl

/-- An absent key is not among the stored keys. -/
theorem alookup_none_not_mem {α : Type} (d : List (String × α)) (key : String)
    (h : alookup d key = none) : key ∉ d.map Prod.fst := by
  induction d with
  | nil => simp
  | cons p rest ih =>
    obtain ⟨k, w⟩ := p
    rw [alookup] at h
    by_cases hk : k = key
    · rw [if_pos hk] at h
      exact absurd h (by simp)
    · rw [if_neg hk] at h
      simp only [List.map_cons, List.mem_cons]
      rintro (h1 | h2)
      · exact hk h1.symm
      · exact ih h h2

/-- Claim C6: `ensure` on a previously-unseen user creates and persists
exactly one session with the fresh identifier and `message_count = 0`; a
second `ensure` for the same user returns that same session and changes
nothing; and distinctness of the per-user keys is preserved, so there
remains at most one session per user identifier. -/
theorem ensure_idempotent_C6 (cfg : Config) (freshId freshId2 : String)
    (user_id : Int) (m : SessionManager)
    (h : alookup m.data (toString user_id) = none) :
    (SessionManager.ensure cfg freshId user_id m).1 =
        ⟨freshId, cfg.claude_model, 0⟩ ∧
      alookup (SessionManager.ensure cfg freshId user_id m).2.data
          (toString user_id) =
        some (SessionManager.ensure cfg freshId user_id m).1 ∧
      (SessionManager.ensure cfg freshId user_id m).2.file =
        some (SessionManager.ensure cfg freshId user_id m).2.data ∧
      (SessionManager.ensure cfg freshId user_id m).2.data.length =
        m.data.length + 1 ∧
      SessionManager.ensure cfg freshId2 user_id
          (SessionManager.ensure cfg freshId user_id m).2 =
        ((SessionManager.ensure cfg freshId user_id m).1,
          (SessionManager.ensure cfg freshId user_id m).2) ∧
      ((m.data.map Prod.fst).Nodup →
        ((SessionManager.ensure cfg freshId user_id m).2.data.map Prod.fst).Nodup) := by
  have hdef : SessionManager.ensure cfg freshId user_id m =
      (⟨freshId, cfg.claude_model, 0⟩,
        ⟨aset m.data (toString user_id) ⟨freshId, cfg.claude_model, 0⟩,
          some (aset m.data (toString user_id) ⟨freshId, cfg.claude_model, 0⟩)⟩) := by
    rw [SessionManager.ensure, h]
  rw [hdef]
  refine ⟨rfl, alookup_aset _ _ _, rfl, ?_, ?_, ?_⟩
  · rw [aset_absent m.data _ _ h]
    simp
  · rw [SessionManager.ensure, alookup_aset]
  · intro hnd
    rw [aset_absent m.data _ _ h]
    simp only [List.map_append, List.map_cons, List.map_nil]
    rw [List.nodup_append]
    exact ⟨hnd, List.nodup_singleton _,
      by simpa using alookup_none_not_mem m.data _ h⟩

/-- Witness for claim C6 on an empty store and user id 42. -/
theorem ensure_idempotent_C6_witness :
    (SessionManager.ensure ⟨some "opus", none, 300⟩ "uuid-1" 42 ⟨[], none⟩).1 =
        ⟨"uuid-1", some "opus", 0⟩ ∧
      alookup (SessionManager.ensure ⟨some "opus", none, 300⟩ "uuid-1" 42
          ⟨[], none⟩).2.data (toString (42 : Int)) =
        some (SessionManager.ensure ⟨some "opus", none, 300⟩ "uuid-1" 42
          ⟨[], none⟩).1 ∧
      (SessionManager.ensure ⟨some "opus", none, 300⟩ "uuid-1" 42 ⟨[], none⟩).2.file =
        some (SessionManager.ensure ⟨some "opus", none, 300⟩ "uuid-1" 42
          ⟨[], none⟩).2.data ∧
      (SessionManager.ensure ⟨some "opus", none, 300⟩ "uuid-1" 42
          ⟨[], none⟩).2.data.length = ([] : List (String × Session)).length + 1 ∧
      SessionManager.ensure ⟨some "opus", none, 300⟩ "uuid-2" 42
          (SessionManager.ensure ⟨some "opus", none, 300⟩ "uuid-1" 42 ⟨[], none⟩).2 =
        ((SessionManager.ensure ⟨some "opus", none, 300⟩ "uuid-1" 42 ⟨[], none⟩).1,
          (SessionManager.ensure ⟨some "opus", none, 300⟩ "uuid-1" 42 ⟨[], none⟩).2) ∧
      ((([] : List (String × Session)).map Prod.fst).Nodup →
        ((SessionManager.ensure ⟨some "opus", none, 300⟩ "uuid-1" 42
          ⟨[], none⟩).2.data.map Prod.fst).Nodup) :=
  ensure_idempotent_C6 ⟨some "opus", none, 300⟩ "uuid-1" "uuid-2" 42 ⟨[], none⟩ rfl

/-- Claim C7: `reset` for a user with an existing session yields a session
whose identifier is the fresh one (hence differs from the prior identifier
whenever the generated UUID is new), whose model equals the prior model,
and whose message count is zero; the result is stored and persisted. -/
theorem reset_fresh_session_C7 (cfg : Config) (freshId : String)
    (user_id : Int) (m : SessionManager) (s : Session)
    (hs : alookup m.data (toString user_id) = some s)
    (hfresh : freshId ≠ s.session_id) :
    (SessionManager.reset cfg freshId user_id m).1.session_id ≠ s.session_id ∧
      (SessionManager.reset cfg freshId user_id m).1.model = s.model ∧
      (SessionManager.reset cfg freshId user_id m).1.message_count = 0 ∧
      alookup (SessionManager.reset cfg freshId user_id m).2.data
          (toString user_id) =
        some (SessionManager.reset cfg freshId user_id m).1 ∧
      (SessionManager.reset cfg freshId user_id m).2.file =
        some (SessionManager.reset cfg freshId user_id m).2.data := by
  have hdef : SessionManager.reset cfg freshId user_id m =
      (⟨freshId, s.model, 0⟩,
        ⟨aset m.data (toString user_id) ⟨freshId, s.model, 0⟩,
          some (aset m.data (toString user_id) ⟨freshId, s.model, 0⟩)⟩) := by
    rw [SessionManager.reset, hs]
  rw [hdef]
  exact ⟨hfresh, rfl, rfl, alookup_aset _ _ _, rfl⟩

/-- Witness for claim C7: resetting user 42's existing session. -/
theorem reset_fresh_session_C7_witness :
    (SessionManager.reset ⟨none, none, 300⟩ "uuid-9" 42
        ⟨[("42", ⟨"uuid-1", some "opus", 3⟩)], none⟩).1.session_id ≠ "uuid-1" ∧
      (SessionManager.reset ⟨none, none, 300⟩ "uuid-9" 42
        ⟨[("42", ⟨"uuid-1", some "opus", 3⟩)], none⟩).1.model = some "opus" ∧
      (SessionManager.reset ⟨none, none, 300⟩ "uuid-9" 42
        ⟨[("42", ⟨"uuid-1", some "opus", 3⟩)], none⟩).1.message_count = 0 ∧
      alookup (SessionManager.reset ⟨none, none, 300⟩ "uuid-9" 42
          ⟨[("42", ⟨"uuid-1", some "opus", 3⟩)], none⟩).2.data (toString (42 : Int)) =
        some (SessionManager.reset ⟨none, none, 300⟩ "uuid-9" 42
          ⟨[("42", ⟨"uuid-1", some "opus", 3⟩)], none⟩).1 ∧
      (SessionManager.reset ⟨none, none, 300⟩ "uuid-9" 42
          ⟨[("42", ⟨"uuid-1", some "opus", 3⟩)], none⟩).2.file =
        some (SessionManager.reset ⟨none, none, 300⟩ "uuid-9" 42
          ⟨[("42", ⟨"uuid-1", some "opus", 3⟩)], none⟩).2.data :=
  reset_fresh_session_C7 ⟨none, none, 300⟩ "uuid-9" 42
    ⟨[("42", ⟨"uuid-1", some "opus", 3⟩)], none⟩ ⟨"uuid-1", some "opus", 3⟩
    (by decide) (by decide)

/-- Claim C9: on load, an absent sessions file yields an empty mapping,
and a present but unparsable file yields an empty mapping with the
corrupt-file warning logged; in both cases the constructor returns
normally (the function is total), so the store keeps operating. -/
theorem load_recovers_C9 (parse : String → Option (List (String × Session)))
    (raw : String) (hbad : parse raw = none) :
    SessionManager.loadData parse FileState.absent = ([], false) ∧
      SessionManager.loadData parse (FileState.present raw) = ([], true) := by
  constructor
  · rfl
  · rw [SessionManager.loadData, hbad]

/-- Witness for claim C9 with a parser rejecting every input. -/
theorem load_recovers_C9_witness :
    SessionManager.loadData (fun _ => none) FileState.absent = ([], false) ∧
      SessionManager.loadData (fun _ => none) (FileState.present "not valid json") =
        ([], true) :=
  load_recovers_C9 (fun _ => none) "not valid json" rfl

/-- Claim C4: for every prompt and session the argument list built by
`ClaudeRunner.run` matches the spec's pattern — `--session-id` exactly
when `message_count = 0` and `--resume` otherwise, `--model` exactly when
the session's model or the process-wide default is set, fixed
`--permission-mode dontAsk --max-turns 50`, and the prompt as the final
argument. -/
theorem buildCmd_matches_spec_C4 (jsonParse : String → Option PyVal) (cfg : Config)
    (prompt : String) (session : Session) (outcome : ProcOutcome) :
    (ClaudeRunner.run jsonParse cfg prompt session outcome).1 =
        cmd_spec cfg prompt session ∧
      (ClaudeRunner.run jsonParse cfg prompt session outcome).1.getLast? =
        some prompt := by
  have h : buildCmd cfg prompt session = cmd_spec cfg prompt session := by
    rw [buildCmd, cmd_spec]
    rcases hm : pyOr session.model cfg.claude_model with _ | s
    · simp [truthy, List.append_assoc]
    · by_cases hs : s = ""
      · subst hs
        simp [truthy, List.append_assoc]
      · simp [truthy, hs, List.append_assoc]
  constructor
  · exact h
  · show (buildCmd cfg prompt session).getLast? = some prompt
    rw [buildCmd]
    exact List.getLast?_concat _

/-- Claim C3: `ClaudeRunner.run` converts every enumerated outcome into a
returned value rather than an exception: on timeout the child is killed
and awaited and a timeout error result is returned; on non-zero exit an
error result wraps the stripped stderr (or the generic placeholder when it
is empty); on zero exit with stdout that fails JSON parsing, the raw
stripped text is wrapped as a `{"result": ...}` value. -/
theorem run_error_handling_C3 (jsonParse : String → Option PyVal)
    (cfg : Config) (prompt : String) (session : Session) (rc : Int)
    (out err : String) :
    (ClaudeRunner.run jsonParse cfg prompt session ProcOutcome.timeout).2 =
        (PyVal.vDict [("error", PyVal.vStr ("Claude timed out after " ++
          toString cfg.timeout_seconds ++ "s"))],
         [RunAction.kill, RunAction.wait]) ∧
      (rc ≠ 0 →
        (ClaudeRunner.run jsonParse cfg prompt session
            (ProcOutcome.exited rc out err)).2 =
          (PyVal.vDict [("error", PyVal.vStr ("Claude CLI error: " ++
            (if pyStrip err = "" then "unknown error" else pyStrip err)))], [])) ∧
      (jsonParse (pyStrip out) = none →
        (ClaudeRunner.run jsonParse cfg prompt session
            (ProcOutcome.exited 0 out err)).2 =
          (PyVal.vDict [("result", PyVal.vStr (pyStrip out))], [])) := by
  refine ⟨rfl, ?_, ?_⟩
  · intro hrc
    show runOutcome jsonParse cfg (ProcOutcome.exited rc out err) = _
    rw [runOutcome, if_pos hrc]
  · intro hparse
    show runOutcome jsonParse cfg (ProcOutcome.exited 0 out err) = _
    rw [runOutcome, if_neg (by simp)]
    show (match jsonParse (pyStrip out) with
      | some v => (v, ([] : List RunAction))
      | none => (PyVal.vDict [("result", PyVal.vStr (pyStrip out))], [])) = _
    rw [hparse]

/-- Witness for claim C3: a timeout, a non-zero exit with stderr
`"boom\n"`, and a zero exit whose stdout `" raw "` is not JSON. -/
theorem run_error_handling_C3_witness :
    (ClaudeRunner.run (fun _ => none) ⟨none, none, 300⟩ "hi" ⟨"sid", none, 0⟩
          ProcOutcome.timeout).2 =
        (PyVal.vDict [("error", PyVal.vStr ("Claude timed out after " ++
          toString (300 : Int) ++ "s"))], [RunAction.kill, RunAction.wait]) ∧
      (ClaudeRunner.run (fun _ => none) ⟨none, none, 300⟩ "hi" ⟨"sid", none, 0⟩
          (ProcOutcome.exited 1 " raw " "boom\n")).2 =
        (PyVal.vDict [("error", PyVal.vStr ("Claude CLI error: " ++
          (if pyStrip "boom\n" = "" then "unknown error" else pyStrip "boom\n")))],
         []) ∧
      (ClaudeRunner.run (fun _ => none) ⟨none, none, 300⟩ "hi" ⟨"sid", none, 0⟩
          (ProcOutcome.exited 0 " raw " "boom\n")).2 =
        (PyVal.vDict [("result", PyVal.vStr (pyStrip " raw "))], []) := by
  have T := run_error_handling_C3 (fun _ => none) ⟨none, none, 300⟩ "hi"
    ⟨"sid", none, 0⟩ 1 " raw " "boom\n"
  exact ⟨T.1, T.2.1 (by decide), T.2.2 rfl⟩

/-- The spec's segment text is exactly the code's contributed part
restricted to strings. -/
theorem segText_eq_blockPart (b : PyVal) :
    segText b = (blockPart b).bind asStr := by
  rcases b with s | n | x | _ | l | d
  · rfl
  · rfl
  · rfl
  · rfl
  · rfl
  · rcases ht : alookup d "type" with _ | v
    · simp [segText, blockPart, ht]
    · rcases v with t | n | x | _ | l2 | d2
      · by_cases htt : t = "text"
        · subst htt
          rcases hx : agetD d "text" (.vStr "") with s | n | x | _ | l | d3 <;>
            simp [segText, blockPart, ht, hx, asStr]
        · simp [segText, blockPart, ht, htt]
      · simp [segText, blockPart, ht]
      · simp [segText, blockPart, ht]
      · simp [segText, blockPart, ht]
      · simp [segText, blockPart, ht]
      · simp [segText, blockPart, ht]

/-- On well-formed block lists, joining the code's parts succeeds and
equals the spec's newline-join of segment texts. -/
theorem pyJoin_collectParts (l : List PyVal) (h : l.all wfBlock = true) :
    pyJoin "\n" (collectParts l) =
      some (String.intercalate "\n" (l.filterMap segText)) := by
  suffices hm : (collectParts l).mapM asStr = some (l.filterMap segText) by
    rw [pyJoin, hm]
    rfl
  induction l with
  | nil => rfl
  | cons b rest ih =>
    rw [List.all_cons, Bool.and_eq_true] at h
    obtain ⟨hb, hrest⟩ := h
    have ihr := ih hrest
    rw [collectParts] at ihr ⊢
    rcases hbp : blockPart b with _ | v
    · have hseg : segText b = none := by
        rw [segText_eq_blockPart, hbp]
        rfl
      simp only [List.filterMap_cons, hbp, hseg]
      exact ihr
    · rw [wfBlock, hbp] at hb
      obtain ⟨s, hv⟩ := Option.isSome_iff_exists.mp hb
      have hseg : segText b = some s := by
        rw [segText_eq_blockPart, hbp, Option.some_bind, hv]
      simp only [List.filterMap_cons, hbp, hseg, List.mapM_cons, hv, ihr]
      rfl

/-- Claim C8: for every well-formed response dictionary,
`extract_response_text` returns exactly what the spec describes: an error
key yields `"Error: <message>"`; a string result is returned as-is; a
list result is the newline-join of the texts of text-typed dict segments
and bare string segments with non-text segments ignored; any other result
value is stringified. -/
theorem extract_text_matches_spec_C8 (strOther : PyVal → String)
    (response : List (String × PyVal)) (h : wfResponse response = true) :
    extract_response_text strOther response =
      some (extract_spec strOther response) := by
  rw [extract_response_text, extract_spec, wfResponse] at *
  rcases herr : alookup response "error" with _ | e
  · rw [herr] at h
    rcases hres : agetD response "result" (PyVal.vStr "") with s | n | x | _ | l | d
    · rfl
    · rfl
    · rfl
    · rfl
    · rw [hres] at h
      exact pyJoin_collectParts l h
    · rfl
  · rfl

/-- Witness for claim C8 at the spec's own example: the result list
`[{"type": "text", "text": "a"}, {"type": "image"}, "b"]` is well formed
and extracts to the spec's value (namely `"a\nb"`). -/
theorem extract_text_matches_spec_C8_witness :
    wfResponse [("result", PyVal.vList
        [PyVal.vDict [("type", PyVal.vStr "text"), ("text", PyVal.vStr "a")],
         PyVal.vDict [("type", PyVal.vStr "image")],
         PyVal.vStr "b"])] = true ∧
      extract_response_text (fun _ => "") [("result", PyVal.vList
        [PyVal.vDict [("type", PyVal.vStr "text"), ("text", PyVal.vStr "a")],
         PyVal.vDict [("type", PyVal.vStr "image")],
         PyVal.vStr "b"])] =
        some (extract_spec (fun _ => "") [("result", PyVal.vList
        [PyVal.vDict [("type", PyVal.vStr "text"), ("text", PyVal.vStr "a")],
         PyVal.vDict [("type", PyVal.vStr "image")],
         PyVal.vStr "b"])]) :=
  ⟨rfl, extract_text_matches_spec_C8 (fun _ => "") _ rfl⟩

example :
    extract_response_text (fun _ => "") [("result", PyVal.vList
        [PyVal.vDict [("type", PyVal.vStr "text"), ("text", PyVal.vStr "a")],
         PyVal.vDict [("type", PyVal.vStr "image")],
         PyVal.vStr "b"])] = some "a\nb" := rfl

example :
    extract_response_text (fun _ => "") [("error", PyVal.vStr "boom")] =
      some "Error: boom" := rfl

example :
    extract_response_text (fun _ => "")
      [("result", PyVal.vStr "hello"), ("cost_usd", PyVal.vInt 1)] =
      some "hello" := rfl

/-- Length bound for the inner loop: at most one entry beyond the
accumulator before the cut-off check, and never more than the requested
count once positive. -/
theorem scanLines_length_le (parse : String → Option LogEntry) (uid : Int)
    (count : Int) :
    ∀ (lines : List String) (acc : List LogEntry),
      (scanLines parse uid count lines acc).length ≤
        max (acc.length + 1) count.toNat := by
  intro lines
  induction lines with
  | nil =>
    intro acc
    rw [scanLines]
    omega
  | cons line rest ih =>
    intro acc
    rw [scanLines]
    rcases hp : parse line with _ | e
    · exact ih acc
    · show (if e.user_id == some uid then
            (if count ≤ (((acc ++ [e]).length : Nat) : Int) then acc ++ [e]
             else scanLines parse uid count rest (acc ++ [e]))
          else scanLines parse uid count rest acc).length ≤ _
      by_cases hm : (e.user_id == some uid) = true
      · rw [if_pos hm]
        by_cases hc : count ≤ (((acc ++ [e]).length : Nat) : Int)
        · rw [if_pos hc]
          simp
        · rw [if_neg hc]
          have h1 := ih (acc ++ [e])
          simp only [List.length_append, List.length_cons, List.length_nil]
            at h1 hc
          omega
      · rw [if_neg hm]
        exact ih acc

/-- Length bound for the outer loop. -/
theorem scanFiles_length_le (parse : String → Option LogEntry) (uid : Int)
    (count : Int) :
    ∀ (fss : List (List String)) (acc : List LogEntry),
      (scanFiles parse uid count fss acc).length ≤
        max (acc.length + 1) count.toNat := by
  intro fss
  induction fss with
  | nil =>
    intro acc
    rw [scanFiles]
    omega
  | cons f fs ih =>
    intro acc
    rw [scanFiles]
    show (if count ≤ ((scanLines parse uid count f.reverse acc).length : Int)
          then scanLines parse uid count f.reverse acc
          else scanFiles parse uid count fs
            (scanLines parse uid count f.reverse acc)).length ≤ _
    by_cases hc : count ≤ ((scanLines parse uid count f.reverse acc).length : Int)
    · rw [if_pos hc]
      have h1 := scanLines_length_le parse uid count f.reverse acc
      omega
    · rw [if_neg hc]
      have h1 := scanLines_length_le parse uid count f.reverse acc
      have h2 := ih (scanLines parse uid count f.reverse acc)
      omega

/-- Every entry the inner loop adds belongs to the requesting user. -/
theorem scanLines_mem (parse : String → Option LogEntry) (uid : Int)
    (count : Int) :
    ∀ (lines : List String) (acc : List LogEntry),
      (∀ e ∈ acc, e.user_id = some uid) →
      ∀ e ∈ scanLines parse uid count lines acc, e.user_id = some uid := by
  intro lines
  induction lines with
  | nil =>
    intro acc hacc
    rw [scanLines]
    exact hacc
  | cons line rest ih =>
    intro acc hacc
    rw [scanLines]
    rcases hp : parse line with _ | e
    · exact ih acc hacc
    · show ∀ x ∈ (if e.user_id == some uid then
            (if count ≤ (((acc ++ [e]).length : Nat) : Int) then acc ++ [e]
             else scanLines parse uid count rest (acc ++ [e]))
          else scanLines parse uid count rest acc), x.user_id = some uid
      by_cases hm : (e.user_id == some uid) = true
      · rw [if_pos hm]
        have hext : ∀ x ∈ acc ++ [e], x.user_id = some uid := by
          intro x hx
          rcases List.mem_append.mp hx with h1 | h2
          · exact hacc x h1
          · rw [List.mem_singleton.mp h2]
            exact eq_of_beq hm
        by_cases hc : count ≤ (((acc ++ [e]).length : Nat) : Int)
        · rw [if_pos hc]
          exact hext
        · rw [if_neg hc]
          exact ih (acc ++ [e]) hext
      · rw [if_neg hm]
        exact ih acc hacc

/-- Every entry the outer loop returns belongs to the requesting user. -/
theorem scanFiles_mem (parse : String → Option LogEntry) (uid : Int)
    (count : Int) :
    ∀ (fss : List (List String)) (acc : List LogEntry),
      (∀ e ∈ acc, e.user_id = some uid) →
      ∀ e ∈ scanFiles parse uid count fss acc, e.user_id = some uid := by
  intro fss
  induction fss with
  | nil =>
    intro acc hacc
    rw [scanFiles]
    exact hacc
  | cons f fs ih =>
    intro acc hacc
    rw [scanFiles]
    show ∀ x ∈ (if count ≤ ((scanLines parse uid count f.reverse acc).length : Int)
          then scanLines parse uid count f.reverse acc
          else scanFiles parse uid count fs
            (scanLines parse uid count f.reverse acc)), x.user_id = some uid
    have hlin := scanLines_mem parse uid count f.reverse acc hacc
    by_cases hc : count ≤ ((scanLines parse uid count f.reverse acc).length : Int)
    · rw [if_pos hc]
      exact hlin
    · rw [if_neg hc]
      exact ih (scanLines parse uid count f.reverse acc) hlin

/-- An unparsable line contributes nothing to the stream. -/
theorem lineMatches_cons_none (parse : String → Option LogEntry) (uid : Int)
    (line : String) (rest : List String) (hp : parse line = none) :
    lineMatches parse uid (line :: rest) = lineMatches parse uid rest := by
  rw [lineMatches, lineMatches, List.filterMap_cons, hp]

/-- Another user's entry contributes nothing to the stream. -/
theorem lineMatches_cons_skip (parse : String → Option LogEntry) (uid : Int)
    (line : String) (rest : List String) (e : LogEntry)
    (hp : parse line = some e) (hm : (e.user_id == some uid) = false) :
    lineMatches parse uid (line :: rest) = lineMatches parse uid rest := by
  rw [lineMatches, lineMatches, List.filterMap_cons, hp]
  simp [List.filter_cons, hm]

/-- The sender's entry heads the stream. -/
theorem lineMatches_cons_keep (parse : String → Option LogEntry) (uid : Int)
    (line : String) (rest : List String) (e : LogEntry)
    (hp : parse line = some e) (hm : (e.user_id == some uid) = true) :
    lineMatches parse uid (line :: rest) = e :: lineMatches parse uid rest := by
  rw [lineMatches, lineMatches, List.filterMap_cons, hp]
  simp [List.filter_cons, hm]

/-- The inner loop returns the accumulator followed by a prefix of the
file's matching-entry stream, the whole stream if the count was not
reached. -/
theorem scanLines_take (parse : String → Option LogEntry) (uid : Int)
    (count : Int) :
    ∀ (lines : List String) (acc : List LogEntry),
      ∃ k, k ≤ (lineMatches parse uid lines).length ∧
        scanLines parse uid count lines acc =
          acc ++ (lineMatches parse uid lines).take k ∧
        (¬count ≤ ((scanLines parse uid count lines acc).length : Int) →
          scanLines parse uid count lines acc =
            acc ++ lineMatches parse uid lines) := by
  intro lines
  induction lines with
  | nil =>
    intro acc
    refine ⟨0, Nat.zero_le _, ?_, ?_⟩
    · rw [scanLines]
      simp
    · intro _
      rw [scanLines, lineMatches]
      simp
  | cons line rest ih =>
    intro acc
    rw [scanLines]
    rcases hp : parse line with _ | e
    · rw [lineMatches_cons_none parse uid line rest hp]
      exact ih acc
    · show ∃ k, k ≤ (lineMatches parse uid (line :: rest)).length ∧
        (if e.user_id == some uid then
            (if count ≤ (((acc ++ [e]).length : Nat) : Int) then acc ++ [e]
             else scanLines parse uid count rest (acc ++ [e]))
          else scanLines parse uid count rest acc) =
          acc ++ (lineMatches parse uid (line :: rest)).take k ∧
        (¬count ≤ (((if e.user_id == some uid then
            (if count ≤ (((acc ++ [e]).length : Nat) : Int) then acc ++ [e]
             else scanLines parse uid count rest (acc ++ [e]))
          else scanLines parse uid count rest acc).length : Nat) : Int) →
          (if e.user_id == some uid then
            (if count ≤ (((acc ++ [e]).length : Nat) : Int) then acc ++ [e]
             else scanLines parse uid count rest (acc ++ [e]))
          else scanLines parse uid count rest acc) =
            acc ++ lineMatches parse uid (line :: rest))
      by_cases hm : (e.user_id == some uid) = true
      · rw [lineMatches_cons_keep parse uid line rest e hp hm, if_pos hm]
        by_cases hc : count ≤ (((acc ++ [e]).length : Nat) : Int)
        · rw [if_pos hc]
          refine ⟨1, by simp, by simp, fun hcon => absurd hc hcon⟩
        · rw [if_neg hc]
          obtain ⟨k, hk, heq, himp⟩ := ih (acc ++ [e])
          refine ⟨k + 1, ?_, ?_, ?_⟩
          · simp only [List.length_cons]
            omega
          · rw [heq, List.take_succ_cons]
            simp
          · intro hcon
            rw [himp hcon]
            simp
      · rw [lineMatches_cons_skip parse uid line rest e hp
          (by simpa using hm), if_neg hm]
        exact ih acc

/-- The per-file streams compose. -/
theorem filesStream_cons (parse : String → Option LogEntry) (uid : Int)
    (f : List String) (fs : List (List String)) :
    filesStream parse uid (f :: fs) =
      lineMatches parse uid f.reverse ++ filesStream parse uid fs := by
  rw [filesStream, filesStream, List.map_cons, List.flatten_cons]

/-- The outer loop returns the accumulator followed by a prefix of the
whole matching-entry stream, the whole stream if the count was not
reached. -/
theorem scanFiles_take (parse : String → Option LogEntry) (uid : Int)
    (count : Int) :
    ∀ (fss : List (List String)) (acc : List LogEntry),
      ∃ k, k ≤ (filesStream parse uid fss).length ∧
        scanFiles parse uid count fss acc =
          acc ++ (filesStream parse uid fss).take k ∧
        (¬count ≤ ((scanFiles parse uid count fss acc).length : Int) →
          scanFiles parse uid count fss acc =
            acc ++ filesStream parse uid fss) := by
  intro fss
  induction fss with
  | nil =>
    intro acc
    refine ⟨0, Nat.zero_le _, ?_, ?_⟩
    · rw [scanFiles]
      simp
    · intro _
      rw [scanFiles, filesStream]
      simp
  | cons f fs ih =>
    intro acc
    rw [scanFiles, filesStream_cons]
    show ∃ k, k ≤ (lineMatches parse uid f.reverse ++ filesStream parse uid fs).length ∧
      (if count ≤ ((scanLines parse uid count f.reverse acc).length : Int)
        then scanLines parse uid count f.reverse acc
        else scanFiles parse uid count fs
          (scanLines parse uid count f.reverse acc)) =
        acc ++ (lineMatches parse uid f.reverse ++ filesStream parse uid fs).take k ∧
      (¬count ≤ (((if count ≤ ((scanLines parse uid count f.reverse acc).length : Int)
        then scanLines parse uid count f.reverse acc
        else scanFiles parse uid count fs
          (scanLines parse uid count f.reverse acc)).length : Nat) : Int) →
        (if count ≤ ((scanLines parse uid count f.reverse acc).length : Int)
        then scanLines parse uid count f.reverse acc
        else scanFiles parse uid count fs
          (scanLines parse uid count f.reverse acc)) =
          acc ++ (lineMatches parse uid f.reverse ++ filesStream parse uid fs))
    obtain ⟨k1, hk1, heq1, himp1⟩ := scanLines_take parse uid count f.reverse acc
    by_cases hc : count ≤ ((scanLines parse uid count f.reverse acc).length : Int)
    · rw [if_pos hc]
      refine ⟨k1, ?_, ?_, fun hcon => absurd hc hcon⟩
      · simp only [List.length_append]
        omega
      · rw [heq1, List.take_append_of_le_length hk1]
    · rw [if_neg hc]
      have hfull := himp1 hc
      obtain ⟨k2, hk2, heq2, himp2⟩ :=
        ih (scanLines parse uid count f.reverse acc)
      refine ⟨(lineMatches parse uid f.reverse).length + k2, ?_, ?_, ?_⟩
      · simp only [List.length_append]
        omega
      · rw [heq2, hfull, List.take_append]
        simp
      · intro hcon
        rw [himp2 hcon, hfull]
        simp

/-- The requested count never exceeds 20. -/
theorem parseCount_le (parseInt : String → Option Int) (args : List String) :
    parseCount parseInt args ≤ 20 := by
  rcases args with _ | ⟨a, rest⟩
  · show (5 : Int) ≤ 20
    norm_num
  · rw [parseCount]
    rcases hpi : parseInt a with _ | n
    · show (5 : Int) ≤ 20
      norm_num
    · show min n 20 ≤ 20
      exact min_le_right _ _

/-- Claim C10: every `/logs` invocation shows at most 20 entries; the
count defaults to 5 on a missing or non-integer argument; only entries
recorded for the requesting sender are shown; and they form a prefix of
the newest-first stream (files in name-descending order, lines of each
file in reverse), i.e. the newest matching entries come first. -/
theorem cmd_logs_bounded_C10 (parse : String → Option LogEntry)
    (parseInt : String → Option Int) (uid : Int) (args : List String)
    (files : List (String × List String)) :
    (cmd_logs_entries parse parseInt uid args files).length ≤ 20 ∧
      (∀ e ∈ cmd_logs_entries parse parseInt uid args files,
        e.user_id = some uid) ∧
      (∃ k, cmd_logs_entries parse parseInt uid args files =
        (matchedStream parse uid files).take k) ∧
      (args = [] → parseCount parseInt args = 5) ∧
      (∀ a rest, args = a :: rest → parseInt a = none →
        parseCount parseInt args = 5) := by
  refine ⟨?_, ?_, ?_, ?_, ?_⟩
  · have hcount := parseCount_le parseInt args
    have hlen := scanFiles_length_le parse uid (parseCount parseInt args)
      ((List.insertionSort (fun a b => b.1 ≤ a.1) files).map Prod.snd) []
    show (scanFiles parse uid (parseCount parseInt args)
      ((List.insertionSort (fun a b => b.1 ≤ a.1) files).map Prod.snd) []).length ≤ 20
    simp only [List.length_nil] at hlen
    omega
  · show ∀ e ∈ scanFiles parse uid (parseCount parseInt args)
      ((List.insertionSort (fun a b => b.1 ≤ a.1) files).map Prod.snd) [],
        e.user_id = some uid
    exact scanFiles_mem parse uid (parseCount parseInt args) _ [] (by simp)
  · obtain ⟨k, _, heq, _⟩ := scanFiles_take parse uid (parseCount parseInt args)
      ((List.insertionSort (fun a b => b.1 ≤ a.1) files).map Prod.snd) []
    refine ⟨k, ?_⟩
    show scanFiles parse uid (parseCount parseInt args)
      ((List.insertionSort (fun a b => b.1 ≤ a.1) files).map Prod.snd) [] =
      (matchedStream parse uid files).take k
    rw [heq, matchedStream]
    rfl
  · intro h
    subst h
    rfl
  · intro a rest h hpi
    subst h
    rw [parseCount, hpi]

/-- Witness for claim C10: two dated files, a request with no argument
(so the default count 5 applies). -/
theorem cmd_logs_bounded_C10_witness :
    (cmd_logs_entries
        (fun s => if s = "x" then some ⟨some 7, "x"⟩ else none)
        (fun _ => none) 7 []
        [("2024-01-01", ["x"]), ("2024-01-02", ["y", "x"])]).length ≤ 20 ∧
      (∃ k, cmd_logs_entries
        (fun s => if s = "x" then some ⟨some 7, "x"⟩ else none)
        (fun _ => none) 7 []
        [("2024-01-01", ["x"]), ("2024-01-02", ["y", "x"])] =
        (matchedStream (fun s => if s = "x" then some ⟨some 7, "x"⟩ else none) 7
          [("2024-01-01", ["x"]), ("2024-01-02", ["y", "x"])]).take k) ∧
      parseCount (fun _ => none) ([] : List String) = 5 := by
  have T := cmd_logs_bounded_C10
    (fun s => if s = "x" then some ⟨some 7, "x"⟩ else none)
    (fun _ => none) 7 []
    [("2024-01-01", ["x"]), ("2024-01-02", ["y", "x"])]
  exact ⟨T.1, T.2.2.1, T.2.2.2.1 rfl⟩
